import Mathlib

/-!
Verification development for the `ook-zed-extension` bridge
(`bridge/src/process.ts` and `bridge/src/server.ts`).

The bridge relays newline-delimited JSON-RPC frames between a WebSocket
peer and a spawned child process.  We give a shallow embedding of the
stateful handlers of `ProcessManager` and `BridgeServer`: the mutable
fields become a state record, each event handler becomes a pure function
from state (plus event data) to a new state together with a list of
observable effects (metric updates, span operations, writes, closes).
JSON parsing is performed by an external library in the source
(`JSON.parse`); here the parse outcome of a frame is passed in as data,
since the handlers only branch on the presence of `id`, `method` and
`error` fields.
-/

/-- Outcome status attached to a trace span (`SpanStatusCode` plus message). -/
inductive SpanStatus
  | ok
  | error (msg : String)
deriving DecidableEq, Repr

/-- Observable side effects of the bridge handlers: metric counter /
gauge updates, histogram records, trace-span operations, the line written
to the child process, the frame sent to the peer, WebSocket closes and
process spawn/kill requests. -/
inductive Effect
  | metricAdd (name : String) (delta : Int) (attrs : List (String × String))
  | histRecord (name : String) (value : Int) (attrs : List (String × String))
  | spanStart (span : Nat) (name : String)
  | spanSetStatus (span : Nat) (status : SpanStatus)
  | spanEnd (span : Nat)
  | sendToProcess (line : String)
  | sendToPeer (data : String)
  | closeConn (conn : Nat) (code : Nat) (reason : String)
  | closePeer (code : Nat) (reason : String)
  | killProcess (pid : Nat)
  | spawnProcess (pid : Nat)
deriving DecidableEq, Repr

/-- A JSON-RPC correlation identifier: the wire format allows a string or
a number (`Map<string | number, PendingRequest>` in `server.ts`).  Ids
are stored exactly as parsed, with no normalization between the two
constructors. -/
inductive JsonId
  | str (s : String)
  | num (n : Int)
deriving DecidableEq, Repr

/-- WebSocket ready states (`WebSocket.CONNECTING/OPEN/CLOSING/CLOSED`). -/
inductive ReadyState
  | CONNECTING
  | OPEN
  | CLOSING
  | CLOSED
deriving DecidableEq, Repr

/-- A peer WebSocket connection: an identity plus its ready state. -/
structure Conn where
  id : Nat
  readyState : ReadyState
deriving DecidableEq, Repr

/-- The fields of a successfully `JSON.parse`d frame that the handlers
inspect: `id` (present iff `parsed.id !== undefined`, a string or
number), `method` (present iff the field is a string; the handler
additionally requires JS truthiness, i.e. a nonempty string), and
`error` (`some msg` iff `parsed.error` is truthy, carrying
`parsed.error.message`). -/
structure ParsedMsg where
  id : Option JsonId
  method : Option String
  error : Option String
deriving DecidableEq, Repr

/-- One in-flight correlated request (`interface PendingRequest` in
`server.ts`): start timestamp, method name, and the trace span opened
for it (identified here by a numeric handle). -/
structure PendingRequest where
  startTime : Nat
  method : String
  span : Nat
deriving DecidableEq, Repr

/-- The `ProcessManager` of `process.ts`, reduced to the state the
handlers consult: `running` models `this.process !== null &&
this.process.exitCode === null` (the `isRunning` getter), `pid` the
child process id. -/
structure ProcessManager where
  running : Bool
  pid : Nat
deriving DecidableEq, Repr

/-- The mutable fields of `BridgeServer` (`server.ts` lines 23-28),
plus two fresh-handle counters (`nextSpan`, `nextPid`) standing for the
allocation of new trace spans and new child processes. -/
structure ServerState where
  activeConnection : Option Conn
  processManager : Option ProcessManager
  pendingRequests : List (JsonId × PendingRequest)
  sessionAuthenticated : Bool
  nextSpan : Nat
  nextPid : Nat
deriving DecidableEq, Repr

/-- The environment constructed for the child in `ProcessManager.spawn`
(`process.ts` lines 42-49):
`env: { ...process.env, ANTHROPIC_API_KEY: process.env.ANTHROPIC_API_KEY }`.
The object spread copies every defined key of the parent environment and
the explicit entry then re-binds `ANTHROPIC_API_KEY` to its parent value
(an `undefined` value leaves the key absent). -/
def childEnv (parent : String → Option String) : String → Option String :=
  fun k =>
    if k = "ANTHROPIC_API_KEY" then parent "ANTHROPIC_API_KEY" else parent k

/-- JS `message.endsWith("\n")`: the last character is a newline. -/
def endsWithNewline (s : String) : Bool :=
  s.data.getLast? = some '\n'

/-- The NDJSON framing line of `ProcessManager.send` (`process.ts`
line 102): `message.endsWith("\n") ? message : message + "\n"`. -/
def normalizeLine (message : String) : String :=
  if endsWithNewline message then message else message ++ "\n"

/-- Model of `ProcessManager.send` (`process.ts` lines 93-104).  When no process
is running it returns `false` and writes nothing; otherwise it writes
the newline-normalized message and returns the stream's acceptance
status (`this.process.stdin.write(line)`), modelled by the `accepted`
input.  The second component is the line written, if any. -/
def ProcessManager.send (pm : ProcessManager) (accepted : Bool)
    (message : String) : Bool × Option String :=
  if pm.running then (accepted, some (normalizeLine message)) else (false, none)

/-- JS `String.prototype.trim`: strip leading and trailing whitespace. -/
def jsTrim (s : String) : String :=
  ⟨((s.data.dropWhile Char.isWhitespace).reverse.dropWhile
      Char.isWhitespace).reverse⟩

/-- The stdout line handler of `ProcessManager.spawn` (`process.ts`
lines 66-71): `if (line.trim()) { ... this.emit("message", line); }`.
Returns the payload of the emitted `message` event, or `none` when the
line is blank after trimming and is dropped. -/
def onStdoutLine (line : String) : Option String :=
  if jsTrim line = "" then none else some line

/-- JS `Map.get` on the pending-request map: the value at the first entry
whose key equals `k`. -/
def getEntry : List (JsonId × PendingRequest) → JsonId → Option PendingRequest
  | [], _ => none
  | e :: rest, k => if e.1 = k then some e.2 else getEntry rest k

/-- JS `Map.set` on the pending-request map: replace the entry at an
existing key, else append a new entry. -/
def setEntry : List (JsonId × PendingRequest) → JsonId → PendingRequest →
    List (JsonId × PendingRequest)
  | [], k, v => [(k, v)]
  | e :: rest, k, v =>
      if e.1 = k then (k, v) :: rest else e :: setEntry rest k v

/-- JS `Map.delete` on the pending-request map: drop the entry at the key. -/
def delEntry : List (JsonId × PendingRequest) → JsonId →
    List (JsonId × PendingRequest)
  | [], _ => []
  | e :: rest, k => if e.1 = k then rest else e :: delEntry rest k

/-- Keys of the pending map are pairwise distinct — the invariant a JS
`Map` maintains by construction. -/
def keysNodup (l : List (JsonId × PendingRequest)) : Prop :=
  (l.map Prod.fst).Nodup

instance (l : List (JsonId × PendingRequest)) : Decidable (keysNodup l) := by
  unfold keysNodup; infer_instance

/-- Model of `BridgeServer.ensureProcess` (`server.ts` lines 94-138): if a
process manager is running it is killed first; then a fresh
`ProcessManager` is constructed, wired, and spawned.  Session resume is
disabled, so a fresh process is always spawned. -/
def ensureProcess (s : ServerState) : ServerState × List Effect :=
  let killFx :=
    match s.processManager with
    | some pm => if pm.running then [Effect.killProcess pm.pid] else []
    | none => []
  ({ s with
      processManager := some ⟨true, s.nextPid⟩,
      nextPid := s.nextPid + 1 },
    killFx ++ [Effect.spawnProcess s.nextPid])

/-- The `connection` handler of `BridgeServer.start` (`server.ts`
lines 40-56): reject with code 1013 when an active connection is still
open, leaving all state unchanged; otherwise admit the peer, bump the
active-connection gauge, and ensure a process. -/
def onConnection (s : ServerState) (ws : Conn) : ServerState × List Effect :=
  let reject : Bool :=
    match s.activeConnection with
    | some c => if c.readyState = ReadyState.OPEN then true else false
    | none => false
  if reject then
    (s, [Effect.closeConn ws.id 1013 "Server busy - single user mode"])
  else
    let s1 := { s with activeConnection := some ws }
    let r := ensureProcess s1
    (r.1, Effect.metricAdd "activeConnections" 1 [] :: r.2)

/-- The `close` handler of `BridgeServer.start` (`server.ts` lines
62-81): decrement the gauge, clear the peer handle, kill the process in
the unauthenticated branch, then kill it unconditionally (session resume
disabled), and reset `sessionAuthenticated`. -/
def onPeerClose (s : ServerState) : ServerState × List Effect :=
  let s1 := { s with activeConnection := none }
  let r2 :=
    match s1.sessionAuthenticated, s1.processManager with
    | false, some pm =>
        ({ s1 with processManager := none }, [Effect.killProcess pm.pid])
    | _, _ => (s1, ([] : List Effect))
  let r3 :=
    match r2.1.processManager with
    | some pm =>
        ({ r2.1 with processManager := none }, [Effect.killProcess pm.pid])
    | none => (r2.1, ([] : List Effect))
  ({ r3.1 with sessionAuthenticated := false },
    Effect.metricAdd "activeConnections" (-1) [] :: (r2.2 ++ r3.2))

/-- The span cleanup loop of the process `exit` handler (`server.ts`
lines 126-129): each pending span is given an error status and ended. -/
def exitSpanFx : List (JsonId × PendingRequest) → List Effect
  | [] => []
  | e :: rest =>
      Effect.spanSetStatus e.2.span (SpanStatus.error "Process exited") ::
      Effect.spanEnd e.2.span :: exitSpanFx rest

/-- The process `exit` handler registered in `ensureProcess`
(`server.ts` lines 123-135): end every pending span with an error
status, clear the pending map, and close the peer with code 1011 when
it is still open. -/
def onProcessExit (s : ServerState) : ServerState × List Effect :=
  let closeFx :=
    match s.activeConnection with
    | some c =>
        if c.readyState = ReadyState.OPEN then
          [Effect.closePeer 1011 "Process exited"]
        else []
    | none => []
  ({ s with pendingRequests := [] }, exitSpanFx s.pendingRequests ++ closeFx)

/-- Model of `BridgeServer.handleIncomingMessage` (`server.ts` lines 140-173).
`raw` is the frame text, `parse` its `JSON.parse` outcome (`none` when
parsing throws), `now` the current `Date.now()`, `accepted` the stdin
stream's write acceptance.  When the parsed frame carries an `id` and a
truthy `method`, a span is started and a pending entry recorded; the raw
frame is always forwarded to the process, and a failed send increments
the `send_failed` error counter. -/
def handleIncomingMessage (s : ServerState) (raw : String)
    (parse : Option ParsedMsg) (now : Nat) (accepted : Bool) :
    ServerState × List Effect :=
  let track :=
    match parse with
    | some p =>
        match p.id, p.method with
        | some i, some m =>
            if m ≠ "" then
              let span := s.nextSpan
              ({ s with
                  pendingRequests :=
                    setEntry s.pendingRequests i ⟨now, m, span⟩,
                  nextSpan := span + 1 },
                [Effect.spanStart span ("acp." ++ m),
                 Effect.metricAdd "requestCount" 1 [("method", m)]])
            else (s, ([] : List Effect))
        | _, _ => (s, ([] : List Effect))
    | none => (s, ([] : List Effect))
  let sendR :=
    match track.1.processManager with
    | some pm =>
        let r := pm.send accepted raw
        (r.1, match r.2 with
          | some line => [Effect.sendToProcess line]
          | none => ([] : List Effect))
    | none => (false, ([] : List Effect))
  let failFx :=
    if sendR.1 then ([] : List Effect)
    else [Effect.metricAdd "errorCount" 1 [("type", "send_failed")]]
  (track.1,
    Effect.metricAdd "messagesIn" 1 [] :: (track.2 ++ sendR.2 ++ failFx))

/-- Model of `BridgeServer.handleOutgoingMessage` (`server.ts` lines 175-220).
`data` is the line emitted by the process, `parse` its `JSON.parse`
outcome, `now` the current `Date.now()`.  A parsed `id` matching a
pending entry records one latency sample, sets the span status (error
when the frame carries an error payload, ok otherwise — in the ok case
a resolved `initialize` marks the session authenticated), ends the span
and deletes the entry.  The raw line is forwarded to the peer when the
connection is open. -/
def handleOutgoingMessage (s : ServerState) (data : String)
    (parse : Option ParsedMsg) (now : Nat) : ServerState × List Effect :=
  let track :=
    match parse with
    | some p =>
        match p.id with
        | some i =>
            match getEntry s.pendingRequests i with
            | some pending =>
                let latFx :=
                  [Effect.histRecord "requestLatency"
                    ((now : Int) - (pending.startTime : Int))
                    [("method", pending.method)]]
                let r :=
                  match p.error with
                  | some msg =>
                      (s, [Effect.spanSetStatus pending.span
                             (SpanStatus.error msg),
                           Effect.metricAdd "errorCount" 1
                             [("type", "rpc_error"),
                              ("method", pending.method)]])
                  | none =>
                      let s' :=
                        if pending.method = "initialize" ∧
                            s.sessionAuthenticated = false then
                          { s with sessionAuthenticated := true }
                        else s
                      (s', [Effect.spanSetStatus pending.span SpanStatus.ok])
                ({ r.1 with
                    pendingRequests := delEntry r.1.pendingRequests i },
                  latFx ++ r.2 ++ [Effect.spanEnd pending.span])
            | none => (s, ([] : List Effect))
        | none => (s, ([] : List Effect))
    | none => (s, ([] : List Effect))
  let fwdFx :=
    match track.1.activeConnection with
    | some c =>
        if c.readyState = ReadyState.OPEN then [Effect.sendToPeer data]
        else ([] : List Effect)
    | none => ([] : List Effect)
  (track.1, Effect.metricAdd "messagesOut" 1 [] :: (track.2 ++ fwdFx))

/-- Recognizer for a histogram-record effect; the only histogram the
bridge records is the `requestLatency` one, so these are exactly the
latency samples. -/
def isLatencyRecord : Effect → Bool
  | Effect.histRecord _ _ _ => true
  | _ => false

/-- Recognizer for a span-end effect. -/
def isSpanEnd : Effect → Bool
  | Effect.spanEnd _ => true
  | _ => false

/-- Recognizer for an error span-status effect. -/
def isErrStatus : Effect → Bool
  | Effect.spanSetStatus _ (SpanStatus.error _) => true
  | _ => false

/-! ### Helper lemmas about the map operations and effect lists -/

lemma getEntry_setEntry_self (l : List (JsonId × PendingRequest))
    (k : JsonId) (v : PendingRequest) :
    getEntry (setEntry l k v) k = some v := by
  induction l with
  | nil => simp [setEntry, getEntry]
  | cons e rest ih =>
      by_cases h : e.1 = k
      · simp [setEntry, h, getEntry]
      · simp [setEntry, h, getEntry, ih]

lemma length_setEntry_of_mem (l : List (JsonId × PendingRequest))
    (k : JsonId) (v v0 : PendingRequest) (h : getEntry l k = some v0) :
    (setEntry l k v).length = l.length := by
  induction l with
  | nil => simp [getEntry] at h
  | cons e rest ih =>
      by_cases he : e.1 = k
      · simp [setEntry, he]
      · simp [getEntry, he] at h
        simp [setEntry, he, ih h]

lemma getEntry_delEntry_ne (l : List (JsonId × PendingRequest))
    (k j : JsonId) (h : j ≠ k) :
    getEntry (delEntry l k) j = getEntry l j := by
  induction l with
  | nil => simp [delEntry]
  | cons e rest ih =>
      by_cases he : e.1 = k
      · subst he
        have hne : ¬ e.1 = j := fun hh => h hh.symm
        simp [delEntry, getEntry, hne]
      · by_cases hj : e.1 = j
        · simp [delEntry, getEntry, hj, h, he]
        · simp [delEntry, he, getEntry, hj, ih]

lemma getEntry_eq_none_of_not_mem (l : List (JsonId × PendingRequest))
    (k : JsonId) (h : k ∉ l.map Prod.fst) : getEntry l k = none := by
  induction l with
  | nil => simp [getEntry]
  | cons e rest ih =>
      simp only [List.map_cons, List.mem_cons, not_or] at h
      have : ¬ e.1 = k := fun hh => h.1 hh.symm
      simp [getEntry, this, ih h.2]

lemma getEntry_delEntry_self (l : List (JsonId × PendingRequest))
    (k : JsonId) (h : keysNodup l) :
    getEntry (delEntry l k) k = none := by
  induction l with
  | nil => simp [delEntry, getEntry]
  | cons e rest ih =>
      unfold keysNodup at h
      simp only [List.map_cons, List.nodup_cons] at h
      by_cases he : e.1 = k
      · subst he
        simp only [delEntry, if_pos rfl]
        exact getEntry_eq_none_of_not_mem rest e.1 h.1
      · simp [delEntry, he, getEntry]
        exact ih h.2

lemma length_delEntry_of_mem (l : List (JsonId × PendingRequest))
    (k : JsonId) (v : PendingRequest) (h : getEntry l k = some v) :
    (delEntry l k).length + 1 = l.length := by
  induction l with
  | nil => simp [getEntry] at h
  | cons e rest ih =>
      by_cases he : e.1 = k
      · simp [delEntry, he]
      · simp [getEntry, he] at h
        simp [delEntry, he]
        exact ih h

lemma exitSpanFx_count_end (l : List (JsonId × PendingRequest)) :
    (exitSpanFx l).countP isSpanEnd = l.length := by
  induction l with
  | nil => simp [exitSpanFx]
  | cons e rest ih =>
      simp [exitSpanFx, List.countP_cons, isSpanEnd, ih]

lemma exitSpanFx_count_err (l : List (JsonId × PendingRequest)) :
    (exitSpanFx l).countP isErrStatus = l.length := by
  induction l with
  | nil => simp [exitSpanFx]
  | cons e rest ih =>
      simp [exitSpanFx, List.countP_cons, isErrStatus, ih]

/-! ### Claim theorems -/

/-- C1: the claim says the child environment contains only the
allow-listed `ANTHROPIC_API_KEY`, with no other parent variable passed
through.  The spawn options in `process.ts` lines 42-49 spread the whole
parent environment (`...process.env`), so `childEnv` is the identity on
every key: for the concrete parent environment
`{PATH=/usr/bin, ANTHROPIC_API_KEY=secret}` the child still sees `PATH`,
a key distinct from the allow-listed one — contradicting both the claim
and the repository's own README ("Zero env inheritance - Only
`ANTHROPIC_API_KEY` passed to child"). -/
theorem env_full_passthrough :
    childEnv
      (fun k => if k = "PATH" then some "/usr/bin"
        else if k = "ANTHROPIC_API_KEY" then some "secret" else none)
      "PATH" = some "/usr/bin" ∧
    ("PATH" : String) ≠ "ANTHROPIC_API_KEY" ∧
    (∀ parent : String → Option String, childEnv parent = parent) := by
  refine ⟨rfl, by decide, fun parent => funext fun k => ?_⟩
  unfold childEnv
  by_cases h : k = "ANTHROPIC_API_KEY"
  · rw [if_pos h, h]
  · rw [if_neg h]

/-- C7: `send` writes the message with a single newline appended when it
lacks a trailing newline (never doubling an existing one), returns the
stream's acceptance status when a process is running, and returns
`false` without writing when no process is running. -/
theorem send_newline_normalization (pm : ProcessManager) (acc : Bool)
    (m : String) :
    (pm.running = false → pm.send acc m = (false, none)) ∧
    (pm.running = true →
      (pm.send acc m).1 = acc ∧
      (pm.send acc m).2 = some (normalizeLine m) ∧
      endsWithNewline (normalizeLine m) = true ∧
      (endsWithNewline m = true → normalizeLine m = m) ∧
      (endsWithNewline m = false → normalizeLine m = m ++ "\n")) := by
  constructor
  · intro h
    simp [ProcessManager.send, h]
  · intro h
    refine ⟨by simp [ProcessManager.send, h], by simp [ProcessManager.send, h],
      ?_, ?_, ?_⟩
    · unfold normalizeLine
      by_cases he : endsWithNewline m
      · simp [he]
      · simp only [he, Bool.false_eq_true, if_false]
        unfold endsWithNewline
        have hdata : (m ++ "\n").data = m.data ++ ['\n'] := by
          rw [String.data_append]
        rw [hdata]
        simp
    · intro he
      simp [normalizeLine, he]
    · intro he
      simp [normalizeLine, he]

/-- Witness for C7 at concrete inputs: a stopped manager refuses the
write, and a running manager writes `"x"` as `normalizeLine "x" = "x\n"`. -/
theorem send_newline_normalization_witness :
    ProcessManager.send ⟨false, 3⟩ true "x" = (false, none) ∧
    (ProcessManager.send ⟨true, 3⟩ true "x").2 = some (normalizeLine "x") ∧
    normalizeLine "x" = "x\n" :=
  ⟨(send_newline_normalization ⟨false, 3⟩ true "x").1 rfl,
   ((send_newline_normalization ⟨true, 3⟩ true "x").2 rfl).2.1,
   by decide⟩

/-- C8 counterexample: the stdout handler emits the original line, not
the trimmed line — on the line `" a "` the emitted payload is `" a "`,
while the claim demands the trimmed `"a"`. -/
theorem stdout_line_not_trimmed :
    onStdoutLine " a " = some " a " ∧
    jsTrim " a " = "a" ∧
    onStdoutLine " a " ≠ some (jsTrim " a ") := by
  refine ⟨by decide, by decide, by decide⟩

/-- C8 (amended): the stdout handler drops a line that is blank after
trimming, and emits every other line unchanged (untrimmed) as the
`message` event payload. -/
theorem stdout_line_emission (line : String) :
    (jsTrim line = "" → onStdoutLine line = none) ∧
    (jsTrim line ≠ "" → onStdoutLine line = some line) := by
  unfold onStdoutLine
  constructor <;> intro h <;> simp [h]

/-- Witness for amended C8: a blank line is dropped, `" a "` is emitted
unchanged. -/
theorem stdout_line_emission_witness :
    onStdoutLine "  " = none ∧ onStdoutLine " a " = some " a " :=
  ⟨(stdout_line_emission "  ").1 (by decide),
   (stdout_line_emission " a ").2 (by decide)⟩

/-- C2: while the active connection is still open, any further inbound
connection is closed with code 1013 and reason
"Server busy - single user mode", and the server state — the existing
connection, process, pending map, authentication flag — is left exactly
unchanged. -/
theorem single_user_rejection (s : ServerState) (ws c : Conn)
    (h1 : s.activeConnection = some c)
    (h2 : c.readyState = ReadyState.OPEN) :
    onConnection s ws =
      (s, [Effect.closeConn ws.id 1013 "Server busy - single user mode"]) := by
  unfold onConnection
  simp [h1, h2]

/-- Witness for C2: a server holding an open connection rejects a second
connection and is unchanged. -/
theorem single_user_rejection_witness :
    onConnection ⟨some ⟨0, ReadyState.OPEN⟩, none, [], false, 0, 0⟩
        ⟨1, ReadyState.OPEN⟩ =
      (⟨some ⟨0, ReadyState.OPEN⟩, none, [], false, 0, 0⟩,
        [Effect.closeConn 1 1013 "Server busy - single user mode"]) :=
  single_user_rejection _ _ ⟨0, ReadyState.OPEN⟩ rfl rfl

lemma handleIncomingMessage_auth (s : ServerState) (raw : String)
    (parse : Option ParsedMsg) (now : Nat) (acc : Bool) :
    (handleIncomingMessage s raw parse now acc).1.sessionAuthenticated =
      s.sessionAuthenticated := by
  unfold handleIncomingMessage
  rcases parse with _ | p
  · rfl
  · rcases p with ⟨pid, pm, pe⟩
    rcases pid with _ | i <;> rcases pm with _ | m
    · rfl
    · rfl
    · rfl
    · by_cases hm : m ≠ "" <;> simp [hm]

/-- C3: within one Session, `sessionAuthenticated` becomes true exactly
when an outbound frame resolves a pending entry whose method is
`initialize` with no error payload (and stays true once set); the
inbound handler and the process-exit handler never change the flag, and
peer close resets it to false (ending the Session). -/
theorem handshake_gates_authentication (s : ServerState) (data raw : String)
    (parse parseIn : Option ParsedMsg) (now now2 : Nat) (acc : Bool) :
    ((handleOutgoingMessage s data parse now).1.sessionAuthenticated = true ↔
      (s.sessionAuthenticated = true ∨
        ∃ p i pending, parse = some p ∧ p.id = some i ∧
          getEntry s.pendingRequests i = some pending ∧
          p.error = none ∧ pending.method = "initialize")) ∧
    (handleIncomingMessage s raw parseIn now2 acc).1.sessionAuthenticated =
      s.sessionAuthenticated ∧
    (onProcessExit s).1.sessionAuthenticated = s.sessionAuthenticated ∧
    (onPeerClose s).1.sessionAuthenticated = false := by
  refine ⟨?_, handleIncomingMessage_auth s raw parseIn now2 acc, rfl, rfl⟩
  unfold handleOutgoingMessage
  rcases parse with _ | p
  · simp
  · rcases hid : p.id with _ | i
    · simp [hid]
    · rcases hget : getEntry s.pendingRequests i with _ | pending
      · simp [hid, hget]
      · rcases herr : p.error with _ | msg
        · by_cases hm : pending.method = "initialize"
          · cases hauth : s.sessionAuthenticated
            · simp [hid, hget, herr, hm, hauth]
            · simp [hid, hget, herr, hm, hauth]
          · simp [hid, hget, herr, hm]
        · simp [hid, hget, herr]

lemma handleOutgoingMessage_unmatched (s : ServerState) (data : String)
    (parse : Option ParsedMsg) (now : Nat)
    (h : ∀ p i, parse = some p → p.id = some i →
      getEntry s.pendingRequests i = none) :
    (handleOutgoingMessage s data parse now).1 = s ∧
    (handleOutgoingMessage s data parse now).2 =
      Effect.metricAdd "messagesOut" 1 [] ::
        (match s.activeConnection with
         | some c =>
             if c.readyState = ReadyState.OPEN then [Effect.sendToPeer data]
             else []
         | none => []) := by
  unfold handleOutgoingMessage
  rcases parse with _ | p
  · simp
  · rcases hid : p.id with _ | i
    · simp [hid]
    · have hget := h p i rfl hid
      simp [hid, hget]

lemma handleOutgoingMessage_matched_state (s : ServerState) (p : ParsedMsg)
    (i : JsonId) (pending : PendingRequest) (data : String) (now : Nat)
    (hid : p.id = some i)
    (hget : getEntry s.pendingRequests i = some pending) :
    (handleOutgoingMessage s data (some p) now).1.pendingRequests =
      delEntry s.pendingRequests i ∧
    (handleOutgoingMessage s data (some p) now).1.activeConnection =
      s.activeConnection := by
  unfold handleOutgoingMessage
  rcases herr : p.error with _ | msg
  · by_cases hm : pending.method = "initialize" ∧
      s.sessionAuthenticated = false <;> simp [hid, hget, herr, hm]
  · simp [hid, hget, herr]

lemma handleOutgoingMessage_matched_fx (s : ServerState) (p : ParsedMsg)
    (i : JsonId) (pending : PendingRequest) (data : String) (now : Nat)
    (hid : p.id = some i)
    (hget : getEntry s.pendingRequests i = some pending) :
    (handleOutgoingMessage s data (some p) now).2.countP isLatencyRecord
      = 1 ∧
    Effect.histRecord "requestLatency"
        ((now : Int) - (pending.startTime : Int))
        [("method", pending.method)]
      ∈ (handleOutgoingMessage s data (some p) now).2 := by
  unfold handleOutgoingMessage
  rcases hac : s.activeConnection with _ | c
  · rcases herr : p.error with _ | msg
    · by_cases hm : pending.method = "initialize" ∧
        s.sessionAuthenticated = false <;>
        simp [hid, hget, herr, hm, hac, List.countP_cons, List.countP_append,
          isLatencyRecord]
    · simp [hid, hget, herr, hac, List.countP_cons, List.countP_append,
        isLatencyRecord]
  · by_cases hrs : c.readyState = ReadyState.OPEN <;>
      rcases herr : p.error with _ | msg
    · by_cases hm : pending.method = "initialize" ∧
        s.sessionAuthenticated = false <;>
        simp [hid, hget, herr, hm, hac, hrs, List.countP_cons,
          List.countP_append, isLatencyRecord]
    · simp [hid, hget, herr, hac, hrs, List.countP_cons, List.countP_append,
        isLatencyRecord]
    · by_cases hm : pending.method = "initialize" ∧
        s.sessionAuthenticated = false <;>
        simp [hid, hget, herr, hm, hac, hrs, List.countP_cons,
          List.countP_append, isLatencyRecord]
    · simp [hid, hget, herr, hac, hrs, List.countP_cons, List.countP_append,
        isLatencyRecord]

/-- C4: resolving a tracked id removes exactly that one pending entry
(the id's entry becomes absent, the map shrinks by one, every other id
is untouched) and records exactly one latency sample, tagged with the
entry's method and measuring `now - startTime`; a second outbound frame
with the same id then finds no entry, so it records no latency sample
and leaves the map unchanged — no entry is ever resolved twice. -/
theorem pending_resolved_exactly_once (s : ServerState) (p p2 : ParsedMsg)
    (i : JsonId) (pending : PendingRequest) (data data2 : String)
    (now now2 : Nat)
    (hnd : keysNodup s.pendingRequests)
    (hid : p.id = some i)
    (hget : getEntry s.pendingRequests i = some pending) :
    getEntry (handleOutgoingMessage s data (some p) now).1.pendingRequests i
      = none ∧
    (handleOutgoingMessage s data (some p) now).1.pendingRequests.length + 1
      = s.pendingRequests.length ∧
    (∀ j, j ≠ i →
      getEntry (handleOutgoingMessage s data (some p) now).1.pendingRequests j
        = getEntry s.pendingRequests j) ∧
    (handleOutgoingMessage s data (some p) now).2.countP isLatencyRecord
      = 1 ∧
    Effect.histRecord "requestLatency"
        ((now : Int) - (pending.startTime : Int))
        [("method", pending.method)]
      ∈ (handleOutgoingMessage s data (some p) now).2 ∧
    (p2.id = some i →
      (handleOutgoingMessage (handleOutgoingMessage s data (some p) now).1
          data2 (some p2) now2).1.pendingRequests =
        (handleOutgoingMessage s data (some p) now).1.pendingRequests ∧
      (handleOutgoingMessage (handleOutgoingMessage s data (some p) now).1
          data2 (some p2) now2).2.countP isLatencyRecord = 0) := by
  obtain ⟨hpend, -⟩ :=
    handleOutgoingMessage_matched_state s p i pending data now hid hget
  obtain ⟨hcount, hmem⟩ :=
    handleOutgoingMessage_matched_fx s p i pending data now hid hget
  have hgone :
      getEntry (handleOutgoingMessage s data (some p) now).1.pendingRequests i
        = none := by
    rw [hpend]; exact getEntry_delEntry_self _ _ hnd
  refine ⟨hgone, ?_, ?_, hcount, hmem, ?_⟩
  · rw [hpend]; exact length_delEntry_of_mem _ _ _ hget
  · intro j hj
    rw [hpend]; exact getEntry_delEntry_ne _ _ _ hj
  · intro hid2
    have hnomatch : ∀ q i', some p2 = some q → q.id = some i' →
        getEntry (handleOutgoingMessage s data (some p) now).1.pendingRequests
          i' = none := by
      intro q i' hq hqi
      cases hq
      rw [hid2] at hqi
      cases hqi
      exact hgone
    obtain ⟨hst, hfx⟩ := handleOutgoingMessage_unmatched
      (handleOutgoingMessage s data (some p) now).1 data2 (some p2) now2
      hnomatch
    constructor
    · rw [hst]
    · rw [hfx]
      rcases hac :
          (handleOutgoingMessage s data (some p) now).1.activeConnection
        with _ | c
      · simp [List.countP_cons, isLatencyRecord]
      · by_cases hrs : c.readyState = ReadyState.OPEN <;>
          simp [hrs, List.countP_cons, isLatencyRecord]

/-- Witness for C4: a server tracking `id = 1` for method `m`; the
response with `id = 1` empties the map and records one latency sample,
and a repeated response with the same id records none. -/
theorem pending_resolved_exactly_once_witness :
    getEntry
      (handleOutgoingMessage
        ⟨some ⟨0, ReadyState.OPEN⟩, none, [(JsonId.num 1, ⟨5, "m", 0⟩)],
          false, 1, 0⟩ "d" (some ⟨some (JsonId.num 1), none, none⟩)
        7).1.pendingRequests (JsonId.num 1) = none ∧
    (handleOutgoingMessage
      ⟨some ⟨0, ReadyState.OPEN⟩, none, [(JsonId.num 1, ⟨5, "m", 0⟩)],
        false, 1, 0⟩ "d" (some ⟨some (JsonId.num 1), none, none⟩)
      7).2.countP isLatencyRecord = 1 ∧
    (handleOutgoingMessage
      (handleOutgoingMessage
        ⟨some ⟨0, ReadyState.OPEN⟩, none, [(JsonId.num 1, ⟨5, "m", 0⟩)],
          false, 1, 0⟩ "d" (some ⟨some (JsonId.num 1), none, none⟩) 7).1
      "d2" (some ⟨some (JsonId.num 1), none, none⟩)
      9).2.countP isLatencyRecord = 0 := by
  have h := pending_resolved_exactly_once
    ⟨some ⟨0, ReadyState.OPEN⟩, none, [(JsonId.num 1, ⟨5, "m", 0⟩)],
      false, 1, 0⟩
    ⟨some (JsonId.num 1), none, none⟩ ⟨some (JsonId.num 1), none, none⟩
    (JsonId.num 1) ⟨5, "m", 0⟩ "d" "d2" 7 9 (by decide) rfl (by decide)
  exact ⟨h.1, h.2.2.2.1, (h.2.2.2.2.2 rfl).2⟩

/-- C5: on process exit with `N` pending requests, exactly `N` spans are
ended and exactly `N` error statuses are set (one per pending entry),
the pending map becomes empty, and when the peer connection is still
open it is closed with code 1011 and reason "Process exited". -/
theorem process_exit_cleanup (s : ServerState) :
    (onProcessExit s).1.pendingRequests = [] ∧
    (onProcessExit s).2.countP isSpanEnd = s.pendingRequests.length ∧
    (onProcessExit s).2.countP isErrStatus = s.pendingRequests.length ∧
    (∀ c, s.activeConnection = some c → c.readyState = ReadyState.OPEN →
      Effect.closePeer 1011 "Process exited" ∈ (onProcessExit s).2) := by
  refine ⟨rfl, ?_, ?_, ?_⟩
  · unfold onProcessExit
    rcases hac : s.activeConnection with _ | c
    · simp [List.countP_append, exitSpanFx_count_end, isSpanEnd,
        List.countP_cons]
    · by_cases hrs : c.readyState = ReadyState.OPEN <;>
        simp [hrs, List.countP_append, exitSpanFx_count_end, isSpanEnd,
          List.countP_cons]
  · unfold onProcessExit
    rcases hac : s.activeConnection with _ | c
    · simp [List.countP_append, exitSpanFx_count_err, isErrStatus,
        List.countP_cons]
    · by_cases hrs : c.readyState = ReadyState.OPEN <;>
        simp [hrs, List.countP_append, exitSpanFx_count_err, isErrStatus,
          List.countP_cons]
  · intro c hc hrs
    unfold onProcessExit
    simp [hc, hrs]

/-- Witness for C5: one pending entry and an open peer — one span ended
with an error status, the map emptied, the peer closed with 1011. -/
theorem process_exit_cleanup_witness :
    (onProcessExit ⟨some ⟨0, ReadyState.OPEN⟩, some ⟨true, 0⟩,
        [(JsonId.num 1, ⟨0, "m", 4⟩)], true, 5, 1⟩).1.pendingRequests = [] ∧
    (onProcessExit ⟨some ⟨0, ReadyState.OPEN⟩, some ⟨true, 0⟩,
        [(JsonId.num 1, ⟨0, "m", 4⟩)], true, 5, 1⟩).2.countP isSpanEnd = 1 ∧
    Effect.closePeer 1011 "Process exited" ∈
      (onProcessExit ⟨some ⟨0, ReadyState.OPEN⟩, some ⟨true, 0⟩,
        [(JsonId.num 1, ⟨0, "m", 4⟩)], true, 5, 1⟩).2 := by
  have h := process_exit_cleanup
    ⟨some ⟨0, ReadyState.OPEN⟩, some ⟨true, 0⟩,
      [(JsonId.num 1, ⟨0, "m", 4⟩)], true, 5, 1⟩
  exact ⟨h.1, h.2.1, h.2.2.2 ⟨0, ReadyState.OPEN⟩ rfl rfl⟩

/-- C6: on peer close the gauge is decremented, the peer handle is
cleared, the process manager — when present — is killed and cleared
regardless of the authentication flag, and `sessionAuthenticated` is
reset; a subsequently admitted peer gets a brand-new process (a fresh
pid is spawned, no kill is needed, nothing is reattached). -/
theorem disconnect_kills_and_respawns (s : ServerState) (ws : Conn) :
    (onPeerClose s).1.activeConnection = none ∧
    (onPeerClose s).1.processManager = none ∧
    (onPeerClose s).1.sessionAuthenticated = false ∧
    Effect.metricAdd "activeConnections" (-1) [] ∈ (onPeerClose s).2 ∧
    (∀ pm, s.processManager = some pm →
      Effect.killProcess pm.pid ∈ (onPeerClose s).2) ∧
    (onConnection (onPeerClose s).1 ws).1.processManager =
      some ⟨true, (onPeerClose s).1.nextPid⟩ ∧
    Effect.spawnProcess (onPeerClose s).1.nextPid ∈
      (onConnection (onPeerClose s).1 ws).2 ∧
    (∀ pid, Effect.killProcess pid ∉ (onConnection (onPeerClose s).1 ws).2) := by
  have hclose : (onPeerClose s).1 =
      ⟨none, none, s.pendingRequests, false, s.nextSpan, s.nextPid⟩ := by
    unfold onPeerClose
    rcases hpm : s.processManager with _ | pm <;>
      cases hauth : s.sessionAuthenticated <;> simp [hpm, hauth]
  have hkill : ∀ pm, s.processManager = some pm →
      Effect.killProcess pm.pid ∈ (onPeerClose s).2 := by
    intro pm hpm
    unfold onPeerClose
    cases hauth : s.sessionAuthenticated <;> simp [hpm, hauth]
  have hgauge : Effect.metricAdd "activeConnections" (-1) [] ∈
      (onPeerClose s).2 := by
    unfold onPeerClose
    simp
  refine ⟨by rw [hclose], by rw [hclose], by rw [hclose], hgauge, hkill,
    ?_, ?_, ?_⟩
  · rw [hclose]
    unfold onConnection ensureProcess
    simp
  · rw [hclose]
    unfold onConnection ensureProcess
    simp
  · intro pid
    rw [hclose]
    unfold onConnection ensureProcess
    simp

/-- Witness for C6: closing a session holding a running process kills
it, and a subsequent connection spawns a fresh process. -/
theorem disconnect_kills_and_respawns_witness :
    (onPeerClose ⟨some ⟨0, ReadyState.OPEN⟩, some ⟨true, 7⟩, [], true, 2,
        8⟩).1.processManager = none ∧
    Effect.killProcess 7 ∈
      (onPeerClose ⟨some ⟨0, ReadyState.OPEN⟩, some ⟨true, 7⟩, [], true, 2,
        8⟩).2 ∧
    Effect.spawnProcess
        (onPeerClose ⟨some ⟨0, ReadyState.OPEN⟩, some ⟨true, 7⟩, [], true, 2,
          8⟩).1.nextPid ∈
      (onConnection
        (onPeerClose ⟨some ⟨0, ReadyState.OPEN⟩, some ⟨true, 7⟩, [], true, 2,
          8⟩).1 ⟨1, ReadyState.CONNECTING⟩).2 := by
  have h := disconnect_kills_and_respawns
    ⟨some ⟨0, ReadyState.OPEN⟩, some ⟨true, 7⟩, [], true, 2, 8⟩
    ⟨1, ReadyState.CONNECTING⟩
  exact ⟨h.2.1, h.2.2.2.2.1 ⟨true, 7⟩ rfl, h.2.2.2.2.2.2.1⟩

lemma handleIncomingMessage_tracked (s : ServerState) (raw : String)
    (p : ParsedMsg) (i : JsonId) (m : String) (now : Nat) (acc : Bool)
    (hid : p.id = some i) (hm : p.method = some m) (hne : m ≠ "") :
    (handleIncomingMessage s raw (some p) now acc).1.pendingRequests =
      setEntry s.pendingRequests i ⟨now, m, s.nextSpan⟩ := by
  unfold handleIncomingMessage
  simp [hid, hm, hne]

lemma handleIncomingMessage_no_span_close (s : ServerState) (raw : String)
    (parse : Option ParsedMsg) (now : Nat) (acc : Bool) :
    (∀ sp, Effect.spanEnd sp ∉
      (handleIncomingMessage s raw parse now acc).2) ∧
    (∀ sp st, Effect.spanSetStatus sp st ∉
      (handleIncomingMessage s raw parse now acc).2) := by
  unfold handleIncomingMessage
  rcases parse with _ | p
  · rcases hpm : s.processManager with _ | pm
    · simp [hpm]
    · by_cases hrun : pm.running <;> cases acc <;>
        simp [hpm, ProcessManager.send, hrun]
  · rcases p with ⟨pid, pmeth, pe⟩
    rcases pid with _ | i
    · rcases hpm : s.processManager with _ | pm
      · simp [hpm]
      · by_cases hrun : pm.running <;> cases acc <;>
          simp [hpm, ProcessManager.send, hrun]
    · rcases pmeth with _ | m
      · rcases hpm : s.processManager with _ | pm
        · simp [hpm]
        · by_cases hrun : pm.running <;> cases acc <;>
            simp [hpm, ProcessManager.send, hrun]
      · by_cases hne : m = ""
        · rcases hpm : s.processManager with _ | pm
          · simp [hne, hpm]
          · by_cases hrun : pm.running <;> cases acc <;>
              simp [hne, hpm, ProcessManager.send, hrun]
        · rcases hpm : s.processManager with _ | pm
          · simp [hne, hpm]
          · by_cases hrun : pm.running <;> cases acc <;>
              simp [hne, hpm, ProcessManager.send, hrun]

/-- C9: an inbound request whose id collides with an already-pending
entry silently replaces that entry — the map does not grow, the new
entry (with the new start time and a fresh span) sits under the id, and
the replaced entry's span is never ended nor given any status by the
inbound handler; moreover string and numeric ids are distinct keys, so
`1` and `"1"` occupy two separate entries. -/
theorem duplicate_id_silent_replacement (s : ServerState) (raw : String)
    (p : ParsedMsg) (i : JsonId) (m : String) (old : PendingRequest)
    (now : Nat) (acc : Bool)
    (hid : p.id = some i) (hm : p.method = some m) (hne : m ≠ "")
    (hold : getEntry s.pendingRequests i = some old) :
    (handleIncomingMessage s raw (some p) now acc).1.pendingRequests.length =
      s.pendingRequests.length ∧
    getEntry
        (handleIncomingMessage s raw (some p) now acc).1.pendingRequests i =
      some ⟨now, m, s.nextSpan⟩ ∧
    (∀ sp, Effect.spanEnd sp ∉
      (handleIncomingMessage s raw (some p) now acc).2) ∧
    (∀ sp st, Effect.spanSetStatus sp st ∉
      (handleIncomingMessage s raw (some p) now acc).2) ∧
    JsonId.num 1 ≠ JsonId.str "1" ∧
    (setEntry (setEntry [] (JsonId.num 1) ⟨0, "a", 0⟩) (JsonId.str "1")
        ⟨1, "b", 1⟩).length = 2 ∧
    getEntry (setEntry (setEntry [] (JsonId.num 1) ⟨0, "a", 0⟩)
        (JsonId.str "1") ⟨1, "b", 1⟩) (JsonId.num 1) = some ⟨0, "a", 0⟩ := by
  have htr := handleIncomingMessage_tracked s raw p i m now acc hid hm hne
  obtain ⟨hend, hstat⟩ :=
    handleIncomingMessage_no_span_close s raw (some p) now acc
  refine ⟨?_, ?_, hend, hstat, by decide, by decide, by decide⟩
  · rw [htr]; exact length_setEntry_of_mem _ _ _ _ hold
  · rw [htr]; exact getEntry_setEntry_self _ _ _

/-- Witness for C9: a second `initialize`-like request reusing id `1`
replaces the first entry without growing the map. -/
theorem duplicate_id_silent_replacement_witness :
    (handleIncomingMessage ⟨some ⟨0, ReadyState.OPEN⟩, some ⟨true, 0⟩,
        [(JsonId.num 1, ⟨2, "a", 0⟩)], false, 3, 1⟩ "r"
      (some ⟨some (JsonId.num 1), some "b", none⟩) 9
      true).1.pendingRequests.length = 1 ∧
    getEntry
      (handleIncomingMessage ⟨some ⟨0, ReadyState.OPEN⟩, some ⟨true, 0⟩,
          [(JsonId.num 1, ⟨2, "a", 0⟩)], false, 3, 1⟩ "r"
        (some ⟨some (JsonId.num 1), some "b", none⟩) 9
        true).1.pendingRequests (JsonId.num 1) = some ⟨9, "b", 3⟩ := by
  have h := duplicate_id_silent_replacement
    ⟨some ⟨0, ReadyState.OPEN⟩, some ⟨true, 0⟩,
      [(JsonId.num 1, ⟨2, "a", 0⟩)], false, 3, 1⟩ "r"
    ⟨some (JsonId.num 1), some "b", none⟩ (JsonId.num 1) "b" ⟨2, "a", 0⟩ 9
    true rfl rfl (by decide) (by decide)
  exact ⟨h.1, h.2.1⟩

/-- C10: a process line that does not parse, parses without an id, or
parses with an id matching no pending entry, leaves the whole server
state (pending map and authentication flag included) unchanged, records
no latency sample, and is forwarded verbatim to the peer when the
connection is open — in particular an error-free initialize-shaped
response with an untracked id never sets `sessionAuthenticated`. -/
theorem unmatched_line_forwarded_unchanged (s : ServerState) (data : String)
    (parse : Option ParsedMsg) (now : Nat)
    (h : ∀ p i, parse = some p → p.id = some i →
      getEntry s.pendingRequests i = none) :
    (handleOutgoingMessage s data parse now).1 = s ∧
    (∀ c, s.activeConnection = some c → c.readyState = ReadyState.OPEN →
      Effect.sendToPeer data ∈ (handleOutgoingMessage s data parse now).2) ∧
    (handleOutgoingMessage s data parse now).2.countP isLatencyRecord
      = 0 := by
  obtain ⟨h1, h2⟩ := handleOutgoingMessage_unmatched s data parse now h
  refine ⟨h1, ?_, ?_⟩
  · intro c hc hrs
    rw [h2, hc]
    simp [hrs]
  · rw [h2]
    rcases hac : s.activeConnection with _ | c
    · simp [isLatencyRecord, List.countP_cons]
    · by_cases hrs : c.readyState = ReadyState.OPEN <;>
        simp [hrs, isLatencyRecord, List.countP_cons]

/-- Witness for C10: an error-free initialize-shaped response whose id
`2` was never tracked is forwarded to the open peer and changes nothing
— the session stays unauthenticated. -/
theorem unmatched_line_forwarded_unchanged_witness :
    (handleOutgoingMessage ⟨some ⟨0, ReadyState.OPEN⟩, some ⟨true, 0⟩,
        [(JsonId.num 1, ⟨2, "initialize", 0⟩)], false, 3, 1⟩ "resp"
      (some ⟨some (JsonId.num 2), some "initialize", none⟩) 9).1 =
      ⟨some ⟨0, ReadyState.OPEN⟩, some ⟨true, 0⟩,
        [(JsonId.num 1, ⟨2, "initialize", 0⟩)], false, 3, 1⟩ ∧
    Effect.sendToPeer "resp" ∈
      (handleOutgoingMessage ⟨some ⟨0, ReadyState.OPEN⟩, some ⟨true, 0⟩,
          [(JsonId.num 1, ⟨2, "initialize", 0⟩)], false, 3, 1⟩ "resp"
        (some ⟨some (JsonId.num 2), some "initialize", none⟩) 9).2 := by
  have h := unmatched_line_forwarded_unchanged
    ⟨some ⟨0, ReadyState.OPEN⟩, some ⟨true, 0⟩,
      [(JsonId.num 1, ⟨2, "initialize", 0⟩)], false, 3, 1⟩ "resp"
    (some ⟨some (JsonId.num 2), some "initialize", none⟩) 9
    (by
      intro p i hp hi
      cases hp
      cases hi
      decide)
  exact ⟨h.1, h.2.1 ⟨0, ReadyState.OPEN⟩ rfl rfl⟩
